import Mathlib

/-!
Shallow embedding of the family-collaboration app ("The Hive",
`streamlit_app.py`) — data-partitioning, identity resolution, calendar
windowing, wishlist claim state machine, chat freshness, note ordering,
soft delete and reaction toggling — together with theorems settling the
spec claims C1..C10.

SQL tables are embedded as Lean lists of row structures; each SQL
statement of the source becomes a pure function on those lists that
mirrors its WHERE/SET clauses.  Python `datetime.date` values are
embedded as proleptic-Gregorian day ordinals (`toOrdinal` mirrors
`date.toordinal`); `datetime` values that only ever carry whole-day
arithmetic are embedded as an ordinal plus seconds-within-day.
-/

namespace Hive

/-- Python truthiness of an optional string: `None` and `""` are falsy,
every other string is truthy.  Used wherever the source tests a nullable
text column with `if value:`. -/
def pyTruthy : Option String → Bool
  | none => false
  | some s => s ≠ ""

/-- Contiguous-sublist test on character lists (helper for `strContains`). -/
def charsContain : List Char → List Char → Bool
  | needle, [] => needle.isEmpty
  | needle, c :: t => needle.isPrefixOf (c :: t) || charsContain needle t

/-- Case-insensitive-ready substring test: Python's `needle in hay` on
strings (callers pass already-lowercased strings, mirroring
`x.lower() in y.lower()`). -/
def strContains (needle hay : String) : Bool :=
  charsContain needle.toList hay.toList

/-! ### Calendar date arithmetic (embedding of `datetime.date` / `calendar.monthrange`) -/

/-- Gregorian leap-year rule, as used by `calendar.monthrange`. -/
def isLeap (y : Nat) : Bool :=
  (y % 4 == 0 && y % 100 != 0) || y % 400 == 0

/-- Number of days in month `m` of year `y` (`calendar.monthrange(y, m)[1]`). -/
def monthLen (y : Nat) : Nat → Nat
  | 1 => 31
  | 2 => if isLeap y then 29 else 28
  | 3 => 31
  | 4 => 30
  | 5 => 31
  | 6 => 30
  | 7 => 31
  | 8 => 31
  | 9 => 30
  | 10 => 31
  | 11 => 30
  | 12 => 31
  | _ => 0

/-- Days in year `y` strictly before month `m`. -/
def daysBeforeMonth (y m : Nat) : Nat :=
  (List.range (m - 1)).foldl (fun acc i => acc + monthLen y (i + 1)) 0

/-- Days strictly before January 1 of year `y` in the proleptic Gregorian
calendar (so `date(1,1,1).toordinal() = 1`). -/
def daysBeforeYear (y : Nat) : Nat :=
  365 * (y - 1) + (y - 1) / 4 - (y - 1) / 100 + (y - 1) / 400

/-- A calendar date as Python's `datetime.date` (year, month, day). -/
structure PyDate where
  year : Nat
  month : Nat
  day : Nat
deriving Repr, DecidableEq

/-- `date.toordinal()`: proleptic Gregorian ordinal of the date. -/
def toOrdinal (d : PyDate) : Nat :=
  daysBeforeYear d.year + daysBeforeMonth d.year d.month + d.day

/-- `date.weekday()` computed from the ordinal: Monday = 0 .. Sunday = 6
(ordinal 1 = 0001-01-01 is a Monday). -/
def pyWeekday (o : Nat) : Nat := (o + 6) % 7

/-! ### Calendar windowing (`streamlit_app.py`, window computation d0/d1) -/

/-- FullCalendar view modes used by the Calendar tab
(`dayGridMonth`, `timeGridWeek`, `timeGridDay`, `listMonth`). -/
inductive CalView
  | month
  | week
  | day
  | list
deriving Repr, DecidableEq

/-- The display window `[d0, d1]` (as date ordinals), mirroring

```
if view in ("dayGridMonth","listMonth"):
    d0 = ref.replace(day=1)
    d1 = d0.replace(day=calendar.monthrange(d0.year, d0.month)[1])
elif view == "timeGridWeek":
    d0 = ref - timedelta(days=ref.weekday())
    d1 = d0 + timedelta(days=6)
else:
    d0 = ref; d1 = ref
``` -/
def calWindow : CalView → PyDate → Nat × Nat
  | CalView.month, ref =>
      (toOrdinal ⟨ref.year, ref.month, 1⟩,
       toOrdinal ⟨ref.year, ref.month, monthLen ref.year ref.month⟩)
  | CalView.list, ref =>
      (toOrdinal ⟨ref.year, ref.month, 1⟩,
       toOrdinal ⟨ref.year, ref.month, monthLen ref.year ref.month⟩)
  | CalView.week, ref =>
      (toOrdinal ref - pyWeekday (toOrdinal ref),
       toOrdinal ref - pyWeekday (toOrdinal ref) + 6)
  | CalView.day, ref => (toOrdinal ref, toOrdinal ref)

/-- An `events` row as consumed by `load_events_between`: `startDate` is
the UTC calendar date (ordinal) of the parsed `start_at`, `none` when
`from_iso` fails; `assignees` is the nullable comma-joined text column. -/
structure EventRow where
  id : Nat
  title : String
  startDate : Option Nat
  assignees : Option String
  allDay : Bool
deriving Repr, DecidableEq

/-- `load_events_between(d0, d1, who)`: keeps the family's events whose
start date lies in `[d0, d1]`, skipping unparsable rows and, when `who`
is non-empty, rows whose assignees do not contain `who`
case-insensitively (`who.lower() not in (e["assignees"] or "").lower()`). -/
def load_events_between (d0 d1 : Nat) (who : String) : List EventRow → List EventRow
  | [] => []
  | e :: rest =>
    match e.startDate with
    | none => load_events_between d0 d1 who rest
    | some sd =>
      if d0 ≤ sd ∧ sd ≤ d1 then
        if who ≠ "" ∧ strContains who.toLower ((e.assignees.getD "").toLower) = false then
          load_events_between d0 d1 who rest
        else
          e :: load_events_between d0 d1 who rest
      else
        load_events_between d0 d1 who rest

/-- The inclusion test stated positively: the event parses, its start
date lies inside the window, and the assignee filter (when given) is a
case-insensitive substring of its assignees. -/
def eventIncluded (d0 d1 : Nat) (who : String) (e : EventRow) : Bool :=
  match e.startDate with
  | none => false
  | some sd =>
      (decide (d0 ≤ sd) && decide (sd ≤ d1))
        && (decide (who = "") || strContains who.toLower ((e.assignees.getD "").toLower))

/-! ### All-day event encoding (`to_exclusive_end` / `disp_end_date`) -/

/-- A `datetime` restricted to what the all-day code paths use: a date
ordinal plus seconds within the day (stored events use midnight). -/
structure PyDateTime where
  day : Int
  secs : Nat
deriving Repr, DecidableEq

/-- `datetime.combine(d, time(0, 0))`. -/
def combineMidnight (d : Int) : PyDateTime := ⟨d, 0⟩

/-- `to_exclusive_end(d) = datetime.combine(d + timedelta(days=1), time(0, 0))`. -/
def to_exclusive_end (d : Int) : PyDateTime := ⟨d + 1, 0⟩

/-- `dt - timedelta(days=1)`. -/
def subOneDay (dt : PyDateTime) : PyDateTime := ⟨dt.day - 1, dt.secs⟩

/-- `dt.date()` of an embedded datetime (seconds stay within the day). -/
def dtDate (dt : PyDateTime) : Int := dt.day

/-- The timestamp columns of an `events` row relevant to the all-day
round trip. -/
structure StoredEvent where
  start_at : PyDateTime
  end_at : Option PyDateTime
  all_day : Bool
deriving Repr, DecidableEq

/-- The Create-event branch for `all_day`:
`s_iso = datetime.combine(sd, time(0,0))`, `e_iso = to_exclusive_end(ed)`,
`all_day = 1`. -/
def create_all_day_event (sd ed : Int) : StoredEvent :=
  { start_at := combineMidnight sd, end_at := some (to_exclusive_end ed), all_day := true }

/-- Displayed start date in Manage events: `sdt.date()`. -/
def disp_start_date (e : StoredEvent) : Int := dtDate e.start_at

/-- Displayed end date in Manage events:
`(edt - timedelta(days=1)).date() if (all_day_val and edt) else (edt.date() if edt else sdt.date())`. -/
def disp_end_date (e : StoredEvent) : Int :=
  match e.end_at with
  | some edt => if e.all_day then dtDate (subOneDay edt) else dtDate edt
  | none => dtDate e.start_at

/-! ### Notes (`notes` table: create, listing, soft delete) -/

/-- A `notes` row. -/
structure NoteRow where
  id : Nat
  content : String
  color : String
  x : Int
  y : Int
  z : Int
  type : String
  assignee : Option String
  due_at : Option String
  tags : Option String
  order_index : Int
  linked_event_id : Option Nat
  family : String
  deleted_at : Option String
deriving Repr, DecidableEq

/-- `family=? AND deleted_at IS NULL`. -/
def note_alive_in_family (fam : String) (n : NoteRow) : Bool :=
  n.family == fam && n.deleted_at == none

/-- `SELECT COALESCE(MAX(order_index),0) m FROM notes WHERE family=? AND
deleted_at IS NULL` followed by Python's `row["m"] or 0`. -/
def max_order_index (db : List NoteRow) (fam : String) : Int :=
  match ((db.filter (note_alive_in_family fam)).map (fun n => n.order_index)) with
  | [] => 0
  | v :: vs => vs.foldl max v

/-- AUTOINCREMENT primary key for the next inserted row. -/
def next_note_id (db : List NoteRow) : Nat :=
  (db.map (fun n => n.id)).foldl max 0 + 1

/-- The Add-Note insert:
`INSERT INTO notes(content,color,x,y,z,type,assignee,due_at,tags,family,order_index)
 VALUES(...)` with `x=40, y=40, z=next_ord, order_index=next_ord` where
`next_ord = (row["m"] or 0) + 1`. -/
def insert_note (db : List NoteRow) (fam content color ty : String)
    (assignee tags due : Option String) : List NoteRow :=
  db ++ [{ id := next_note_id db
         , content := content
         , color := color
         , x := 40
         , y := 40
         , z := max_order_index db fam + 1
         , type := ty
         , assignee := assignee
         , due_at := due
         , tags := tags
         , order_index := max_order_index db fam + 1
         , linked_event_id := none
         , family := fam
         , deleted_at := none }]

/-- The optional corkboard text filters
(`?='' OR LOWER(col) LIKE '%'||LOWER(?)||'%'`, with `COALESCE(col,'')`
for the nullable columns). -/
def note_matches_filters (fSearch fAssignee fTags : String) (n : NoteRow) : Bool :=
  (fSearch == "" || strContains fSearch.toLower n.content.toLower)
    && (fAssignee == "" || strContains fAssignee.toLower (n.assignee.getD "").toLower)
    && (fTags == "" || strContains fTags.toLower (n.tags.getD "").toLower)

/-- `ORDER BY order_index DESC, id DESC` as a total order on rows. -/
def noteOrder (a b : NoteRow) : Prop :=
  b.order_index < a.order_index ∨ (a.order_index = b.order_index ∧ b.id ≤ a.id)

instance : DecidableRel noteOrder := by
  intro a b
  unfold noteOrder
  exact inferInstance

instance : IsTotal NoteRow noteOrder :=
  ⟨by intro a b; unfold noteOrder; omega⟩

instance : IsTrans NoteRow noteOrder :=
  ⟨by intro a b c; unfold noteOrder; omega⟩

/-- The corkboard listing query:
`SELECT * FROM notes WHERE family=? AND deleted_at IS NULL AND <filters>
 ORDER BY order_index DESC, id DESC LIMIT 25 OFFSET page*25`. -/
def list_notes (db : List NoteRow) (fam fSearch fAssignee fTags : String)
    (page : Nat) : List NoteRow :=
  ((List.insertionSort noteOrder
      (db.filter (fun n =>
        note_alive_in_family fam n && note_matches_filters fSearch fAssignee fTags n))).drop
    (page * 25)).take 25

/-- Note soft delete:
`UPDATE notes SET deleted_at=? WHERE id=? AND family=?` (family scope
re-asserted). -/
def soft_delete_note (db : List NoteRow) (fam : String) (i : Nat) (t : String) :
    List NoteRow :=
  db.map (fun n => if n.id = i ∧ n.family = fam then { n with deleted_at := some t } else n)

/-! ### Lists and list items -/

/-- A `lists` row. -/
structure ListRow where
  id : Nat
  title : String
  family : String
  type : String
  created_by : Option String
  deleted_at : Option String
deriving Repr, DecidableEq

/-- `ORDER BY id DESC` on lists. -/
def listRowOrder (a b : ListRow) : Prop := b.id ≤ a.id

instance : DecidableRel listRowOrder := by
  intro a b
  unfold listRowOrder
  exact inferInstance

instance : IsTotal ListRow listRowOrder :=
  ⟨by intro a b; unfold listRowOrder; omega⟩

instance : IsTrans ListRow listRowOrder :=
  ⟨by intro a b c; unfold listRowOrder; omega⟩

/-- `SELECT id, title, type, created_by FROM lists WHERE family=? AND
(deleted_at IS NULL) ORDER BY id DESC LIMIT 100`. -/
def list_lists (db : List ListRow) (fam : String) : List ListRow :=
  (List.insertionSort listRowOrder
    (db.filter (fun l => l.family == fam && l.deleted_at == none))).take 100

/-- List soft delete: `UPDATE lists SET deleted_at=? WHERE id=?`
(no family predicate in the source). -/
def soft_delete_list (db : List ListRow) (i : Nat) (t : String) : List ListRow :=
  db.map (fun l => if l.id = i then { l with deleted_at := some t } else l)

/-- A `list_items` row (shared by normal lists and wishlists). -/
structure ListItemRow where
  id : Nat
  list_id : Nat
  text : String
  done : Bool
  url : Option String
  image_url : Option String
  claimed_by : Option String
  purchased_by : Option String
deriving Repr, DecidableEq

/-- Normal-list done toggle: `UPDATE list_items SET done=? WHERE id=?`
(id alone, no family join). -/
def set_item_done (db : List ListItemRow) (i : Nat) (d : Bool) : List ListItemRow :=
  db.map (fun it => if it.id = i then { it with done := d } else it)

/-- Normal-list item delete: `DELETE FROM list_items WHERE id=?`
(id alone, no family join). -/
def delete_list_item (db : List ListItemRow) (i : Nat) : List ListItemRow :=
  db.filter (fun it => !(it.id == i))

/-! ### Wishlist claim state machine -/

/-- A freshly inserted wishlist item:
`INSERT INTO list_items(list_id, text, url, image_url, done) VALUES(?,?,?,?,0)`
leaves `claimed_by` and `purchased_by` NULL. -/
def fresh_wishlist_item (lid i : Nat) (txt : String) (url img : Option String) :
    ListItemRow :=
  { id := i, list_id := lid, text := txt, done := false
  , url := url, image_url := img, claimed_by := none, purchased_by := none }

/-- `UPDATE list_items SET claimed_by=?, purchased_by=NULL WHERE id=?`
applied to the row. -/
def wish_claim (it : ListItemRow) (u : String) : ListItemRow :=
  { it with claimed_by := some u, purchased_by := none }

/-- `UPDATE list_items SET claimed_by=NULL, purchased_by=NULL WHERE id=?`
applied to the row. -/
def wish_unclaim (it : ListItemRow) : ListItemRow :=
  { it with claimed_by := none, purchased_by := none }

/-- `UPDATE list_items SET purchased_by=? WHERE id=?` applied to the row. -/
def wish_purchase (it : ListItemRow) (u : String) : ListItemRow :=
  { it with purchased_by := some u }

/-- The three wishlist buttons. -/
inductive WishAction
  | claim
  | unclaim
  | purchase
deriving Repr, DecidableEq

/-- One interaction of `viewer` with a wishlist item on a list created by
`creator`, mirroring the button-rendering branches: the creator is shown
no buttons; `if it["purchased_by"]: pass` (locked);
`elif it["claimed_by"] is None:` only Claim; `elif it["claimed_by"] ==
DISPLAY_NAME:` only Unclaim / Mark Purchased; otherwise no buttons. -/
def wish_step (creator viewer : String) (a : WishAction) (it : ListItemRow) :
    ListItemRow :=
  if viewer = creator then it
  else if pyTruthy it.purchased_by then it
  else
    match it.claimed_by with
    | none =>
        match a with
        | WishAction.claim => wish_claim it viewer
        | WishAction.unclaim => it
        | WishAction.purchase => it
    | some x =>
        if x = viewer then
          match a with
          | WishAction.claim => it
          | WishAction.unclaim => wish_unclaim it
          | WishAction.purchase => wish_purchase it viewer
        else it

/-- The status caption a viewer sees for an item, mirroring the privacy
branch: the creator sees nothing; otherwise `if it["purchased_by"]:`
shows the purchaser, `elif it["claimed_by"]:` shows the claimant. -/
def wish_status (creator viewer : String) (it : ListItemRow) : Option String :=
  if viewer = creator then none
  else if pyTruthy it.purchased_by then it.purchased_by
  else if pyTruthy it.claimed_by then it.claimed_by
  else none

/-- Fold a sequence of `(viewer, action)` interactions over an item. -/
def wish_run (creator : String) (acts : List (String × WishAction))
    (it : ListItemRow) : ListItemRow :=
  acts.foldl (fun s p => wish_step creator p.1 p.2 s) it

/-- The field-consistency invariant: `purchased_by` is non-NULL only when
`claimed_by` is non-NULL and equal to it. -/
def wish_inv (it : ListItemRow) : Prop :=
  it.purchased_by ≠ none → it.claimed_by = it.purchased_by

/-! ### Documents (`documents` table) -/

/-- A `documents` row. -/
structure DocRow where
  id : Nat
  title : String
  content : String
  family : String
  deleted_at : Option String
deriving Repr, DecidableEq

/-- `ORDER BY id DESC` on documents. -/
def docRowOrder (a b : DocRow) : Prop := b.id ≤ a.id

instance : DecidableRel docRowOrder := by
  intro a b
  unfold docRowOrder
  exact inferInstance

instance : IsTotal DocRow docRowOrder :=
  ⟨by intro a b; unfold docRowOrder; omega⟩

instance : IsTrans DocRow docRowOrder :=
  ⟨by intro a b c; unfold docRowOrder; omega⟩

/-- `SELECT * FROM documents WHERE family=? AND (deleted_at IS NULL)
ORDER BY id DESC LIMIT 50`. -/
def list_documents (db : List DocRow) (fam : String) : List DocRow :=
  (List.insertionSort docRowOrder
    (db.filter (fun d => d.family == fam && d.deleted_at == none))).take 50

/-- The document Save button: `UPDATE documents SET content=? WHERE id=?`.
The handler runs in a session whose family is `actingFam`, but the SQL
filters by the caller-supplied id alone — `actingFam` is not consulted. -/
def update_document (db : List DocRow) (actingFam : String) (i : Nat)
    (c : String) : List DocRow :=
  let _ := actingFam
  db.map (fun d => if d.id = i then { d with content := c } else d)

/-- Document soft delete: `UPDATE documents SET deleted_at=? WHERE id=?`
(no family predicate in the source). -/
def soft_delete_document (db : List DocRow) (i : Nat) (t : String) : List DocRow :=
  db.map (fun d => if d.id = i then { d with deleted_at := some t } else d)

/-! ### Reactions (`reactions` table, unique index `uniq_rx`) -/

/-- A `reactions` row, identified by its unique `(note_id, emoji, author)`
triple (enforced by `CREATE UNIQUE INDEX uniq_rx ON
reactions(note_id, emoji, author)`). -/
structure Reaction where
  note_id : Nat
  emoji : String
  author : String
deriving Repr, DecidableEq

/-- The emoji button handler: `INSERT INTO reactions(note_id, emoji,
author) VALUES(?,?,?)`, and on `sqlite3.IntegrityError` (the unique index
fired, i.e. the triple already exists) `DELETE FROM reactions WHERE
note_id=? AND emoji=? AND author=?`. -/
def toggle_reaction (db : List Reaction) (r : Reaction) : List Reaction :=
  if r ∈ db then db.filter (fun x => decide (x ≠ r)) else db ++ [r]

/-! ### Chat freshness (`chat_messages`, last-seen cursor) -/

/-- A `chat_messages` row of one `(family, room)` scope. -/
structure ChatMsg where
  id : Nat
  author : String
  text : String
deriving Repr, DecidableEq

/-- `SELECT * FROM chat_messages WHERE family=? AND room=? ORDER BY id
DESC LIMIT 100` followed by `list(reversed(rows_desc))`: the last 100
messages in chronological order.  `msgs` is the room's full history in
insertion (id) order. -/
def chat_window (msgs : List ChatMsg) : List ChatMsg :=
  (msgs.reverse.take 100).reverse

/-- `[m for m in msgs if m["id"] > prev_seen and m["author"] != DISPLAY_NAME]`. -/
def new_from_others (viewer : String) (cursor : Nat) (w : List ChatMsg) :
    List ChatMsg :=
  w.filter (fun m => decide (cursor < m.id) && decide (m.author ≠ viewer))

/-- `last_id = int(msgs[-1]["id"]) if msgs else 0`. -/
def chat_last_id (w : List ChatMsg) : Nat :=
  match w.getLast? with
  | some m => m.id
  | none => 0

/-- One render cycle of the chat tab: returns the unread-indicator count
and the cursor value stored after rendering (`st.session_state[state_key]
= last_id`, unconditional). -/
def chat_render (msgs : List ChatMsg) (viewer : String) (cursor : Nat) :
    Nat × Nat :=
  ((new_from_others viewer cursor (chat_window msgs)).length,
   chat_last_id (chat_window msgs))

/-! ### Identity resolution (`_sticky_user_bootstrap`) -/

/-- `_sticky_user_bootstrap` for the display name: `sessionUser` is
`st.session_state.get("user")` before the run, `qpUser` is
`st.query_params.get("user")`, `lastActive` is
`_get_setting(fam, "last_active_user", None)`.

Mirrors:
```
if "user" not in st.session_state:
    st.session_state["user"] = qp.get("user", "Guest")
if not qp.get("user"):
    last = _get_setting(fam, "last_active_user", None)
    if last and st.session_state.get("user") != last:
        st.session_state["user"] = last
``` -/
def resolve_user (sessionUser qpUser lastActive : Option String) : String :=
  let u0 := match sessionUser with
    | some s => s
    | none => qpUser.getD "Guest"
  if pyTruthy qpUser then u0
  else
    match lastActive with
    | none => u0
    | some l => if l ≠ "" ∧ u0 ≠ l then l else u0

/-- Family resolution:
`if "family" not in st.session_state: st.session_state["family"] =
qp.get("family", "public")`. -/
def resolve_family (sessionFam qpFam : Option String) : String :=
  match sessionFam with
  | some f => f
  | none => qpFam.getD "public"

/-- `fam = st.session_state.get("family") or "public"`: the family under
which the last-active setting is looked up. -/
def family_key (sessionFam qpFam : Option String) : String :=
  if resolve_family sessionFam qpFam = "" then "public"
  else resolve_family sessionFam qpFam

/-! ### Remaining mutations relevant to family scoping -/

/-- Corkboard drag persistence:
`UPDATE notes SET x=?, y=? WHERE id=? AND family=?` (family scope
re-asserted). -/
def update_note_position (db : List NoteRow) (fam : String) (i : Nat)
    (px py : Int) : List NoteRow :=
  db.map (fun n => if n.id = i ∧ n.family = fam then { n with x := px, y := py } else n)

/-- The Claim button at table level:
`UPDATE list_items SET claimed_by=?, purchased_by=NULL WHERE id=?`
(id alone, no family join). -/
def claim_item (db : List ListItemRow) (u : String) (i : Nat) : List ListItemRow :=
  db.map (fun it => if it.id = i then wish_claim it u else it)

/-- The Unclaim button at table level:
`UPDATE list_items SET claimed_by=NULL, purchased_by=NULL WHERE id=?`
(id alone, no family join). -/
def unclaim_item (db : List ListItemRow) (i : Nat) : List ListItemRow :=
  db.map (fun it => if it.id = i then wish_unclaim it else it)

/-- The Mark-Purchased button at table level:
`UPDATE list_items SET purchased_by=? WHERE id=?` (id alone, no family
join). -/
def purchase_item (db : List ListItemRow) (u : String) (i : Nat) : List ListItemRow :=
  db.map (fun it => if it.id = i then wish_purchase it u else it)

/-- An `events` table row as stored (timestamps kept as their ISO text). -/
structure EventDbRow where
  id : Nat
  title : String
  start_at : String
  end_at : Option String
  assignees : Option String
  family : String
  all_day : Bool
deriving Repr, DecidableEq

/-- The Manage-events Update button:
`UPDATE events SET title=?, start_at=?, end_at=?, assignees=?, all_day=?
 WHERE id=? AND family=?` (family scope re-asserted). -/
def update_event (db : List EventDbRow) (fam : String) (i : Nat)
    (ti s en asg : String) (ad : Bool) : List EventDbRow :=
  db.map (fun r =>
    if r.id = i ∧ r.family = fam then
      { r with title := ti, start_at := s, end_at := some en,
               assignees := some asg, all_day := ad }
    else r)

/-- The Manage-events Delete button:
`DELETE FROM events WHERE id=? AND family=?` (family scope re-asserted). -/
def delete_event (db : List EventDbRow) (fam : String) (i : Nat) : List EventDbRow :=
  db.filter (fun r => !(r.id == i && r.family == fam))

/-- A `chat_messages` table row as stored. -/
structure ChatDbRow where
  id : Nat
  family : String
  room : String
  author : String
  text : String
deriving Repr, DecidableEq

/-- Chat quick-delete:
`DELETE FROM chat_messages WHERE id=? AND family=? AND room=? AND
author=?` (family scope re-asserted). -/
def delete_chat_message (db : List ChatDbRow) (i : Nat)
    (fam room author : String) : List ChatDbRow :=
  db.filter (fun m =>
    !(m.id == i && m.family == fam && m.room == room && m.author == author))

/-! ## Theorems -/

/-- Mapping a function that fixes every element of a list is the
identity. -/
theorem list_map_fixed_eq_self {α : Type} (f : α → α) (l : List α)
    (h : ∀ a ∈ l, f a = a) : l.map f = l := by
  induction l with
  | nil => rfl
  | cons a tl ih =>
    rw [List.map_cons, h a (List.mem_cons_self a tl),
      ih (fun b hb => h b (List.mem_cons_of_mem a hb))]

/-- Claim C3: creating an all-day event whose last included day is `E`
stores `end_at` as `E` plus one day at midnight (exclusive encoding), and
the Manage-events panel displays the end date as `end_at`'s date minus
one day, so an all-day event created for start `D` and end `E`
round-trips to display dates `D` and `E`; in particular a one-day
all-day event created for date `D` displays start `D` and end `D` again. -/
theorem c3_all_day_round_trip (sd ed d : Int) :
    (create_all_day_event sd ed).end_at = some ⟨ed + 1, 0⟩
      ∧ disp_start_date (create_all_day_event sd ed) = sd
      ∧ disp_end_date (create_all_day_event sd ed) = ed
      ∧ disp_start_date (create_all_day_event d d) = d
      ∧ disp_end_date (create_all_day_event d d) = d := by
  refine ⟨rfl, rfl, ?_, rfl, ?_⟩ <;>
    · simp only [disp_end_date, create_all_day_event, to_exclusive_end, subOneDay, dtDate,
        combineMidnight, if_pos]
      omega

/-- Claim C2: the wishlist claim/purchase workflow follows the state
machine `unclaimed -> claimed(by X) -> purchased(by X)`: a non-creator
viewer may claim a fresh (unclaimed) item; only the claimant may unclaim
or purchase their claim (another viewer's attempt is a no-op); once
`purchased_by` is set no claim/unclaim/purchase transition is possible
for anyone; and the list's creator is never shown claim/purchase state
in any item state. -/
theorem c2_wishlist_state_machine (creator viewer other : String)
    (it : ListItemRow)
    (hvc : viewer ≠ creator) (hoc : other ≠ creator) (hov : other ≠ viewer) :
    (∀ lid i txt url img,
        wish_step creator viewer WishAction.claim (fresh_wishlist_item lid i txt url img)
          = wish_claim (fresh_wishlist_item lid i txt url img) viewer)
      ∧ (it.claimed_by = some viewer → pyTruthy it.purchased_by = false →
          wish_step creator viewer WishAction.unclaim it = wish_unclaim it
            ∧ wish_step creator viewer WishAction.purchase it = wish_purchase it viewer)
      ∧ (it.claimed_by = some viewer → pyTruthy it.purchased_by = false →
          ∀ a, wish_step creator other a it = it)
      ∧ (pyTruthy it.purchased_by = true → ∀ u a, wish_step creator u a it = it)
      ∧ (∀ a s, wish_step creator creator a s = s)
      ∧ (∀ s, wish_status creator creator s = none) := by
  refine ⟨?_, ?_, ?_, ?_, ?_, ?_⟩
  · intro lid i txt url img
    simp [wish_step, fresh_wishlist_item, pyTruthy, hvc]
  · intro hcl hpu
    constructor <;> simp [wish_step, hvc, hpu, hcl]
  · intro hcl hpu a
    have hvo : viewer ≠ other := Ne.symm hov
    simp [wish_step, hoc, hpu, hcl, hvo]
  · intro hpu u a
    by_cases hu : u = creator <;> simp [wish_step, hu, hpu]
  · intro a s
    simp [wish_step]
  · intro s
    simp [wish_status]

/-- Every single wishlist interaction preserves the field-consistency
invariant. -/
theorem wish_step_preserves_inv (creator viewer : String) (a : WishAction)
    (it : ListItemRow) (h : wish_inv it) : wish_inv (wish_step creator viewer a it) := by
  obtain ⟨i, lid, txt, dn, url, img, cl, pu⟩ := it
  by_cases h1 : viewer = creator
  · simpa [wish_step, h1] using h
  · cases pu with
    | some p =>
      by_cases hp : p = ""
      · subst hp
        have hcl : cl = some "" := h (by simp)
        subst hcl
        by_cases h4 : viewer = ""
        · subst h4
          cases a <;>
            simp [wish_step, h1, pyTruthy, wish_unclaim, wish_purchase, wish_inv]
        · have h4x : ¬("" = viewer) := fun hh => h4 hh.symm
          simpa [wish_step, h1, pyTruthy, h4x] using h
      · simpa [wish_step, h1, pyTruthy, hp] using h
    | none =>
      cases cl with
      | none =>
        cases a <;> simp [wish_step, h1, pyTruthy, wish_claim, wish_inv]
      | some x =>
        by_cases h3 : x = viewer
        · cases a <;>
            simp [wish_step, h1, pyTruthy, h3, wish_unclaim, wish_purchase, wish_inv]
        · simpa [wish_step, h1, pyTruthy, h3] using h

/-- The invariant is preserved by any sequence of interactions. -/
theorem wish_run_preserves_inv (creator : String)
    (acts : List (String × WishAction)) :
    ∀ it : ListItemRow, wish_inv it → wish_inv (wish_run creator acts it) := by
  induction acts with
  | nil => exact fun it h => h
  | cons p rest ih =>
    intro it h
    unfold wish_run
    rw [List.foldl_cons]
    exact ih _ (wish_step_preserves_inv creator p.1 p.2 it h)

/-- Claim C10: from a freshly inserted wishlist item (both claim fields
NULL), every state reachable through claim/unclaim/purchase interactions
satisfies: `purchased_by` non-NULL only when `claimed_by` equals it.
Moreover claiming explicitly clears `purchased_by`, unclaiming clears
both fields, and purchasing copies the current claimant. -/
theorem c10_wishlist_consistency (creator u : String)
    (acts : List (String × WishAction)) (lid i : Nat) (txt : String)
    (url img : Option String) (it : ListItemRow) :
    wish_inv (wish_run creator acts (fresh_wishlist_item lid i txt url img))
      ∧ (wish_claim it u).purchased_by = none
      ∧ (wish_unclaim it).claimed_by = none
      ∧ (wish_unclaim it).purchased_by = none
      ∧ (u ≠ creator → it.claimed_by = some u → pyTruthy it.purchased_by = false →
          wish_step creator u WishAction.purchase it = { it with purchased_by := some u }) := by
  refine ⟨?_, rfl, rfl, rfl, ?_⟩
  · refine wish_run_preserves_inv creator acts _ ?_
    intro hp
    simp [fresh_wishlist_item] at hp
  · intro hu hcl hpu
    simp [wish_step, hu, hpu, hcl, wish_purchase]

/-- Witness for C10 at a concrete run. -/
theorem c10_wishlist_consistency_witness :
    wish_inv (wish_run "alice" [("bob", WishAction.claim), ("bob", WishAction.purchase)]
      (fresh_wishlist_item 1 1 "bike" none none)) :=
  (c10_wishlist_consistency "alice" "bob"
    [("bob", WishAction.claim), ("bob", WishAction.purchase)] 1 1 "bike" none none
    (fresh_wishlist_item 1 1 "bike" none none)).1

/-- Witness for C2 at concrete names and a concrete claimed item. -/
theorem c2_wishlist_state_machine_witness :
    wish_step "alice" "bob" WishAction.claim (fresh_wishlist_item 1 1 "bike" none none)
      = wish_claim (fresh_wishlist_item 1 1 "bike" none none) "bob" :=
  ((c2_wishlist_state_machine "alice" "bob" "carol"
      (fresh_wishlist_item 1 1 "bike" none none)
      (by decide) (by decide) (by decide)).1) 1 1 "bike" none none

/-- Claim C9: the `(note_id, emoji, author)` triple is unique; reacting
when absent inserts exactly that one row, reacting when present removes
it, and toggling twice returns the reactions table to its prior state
(up to row order). -/
theorem c9_reaction_toggle (db : List Reaction) (r : Reaction) (h : db.Nodup) :
    (r ∉ db → toggle_reaction db r = db ++ [r])
      ∧ (r ∈ db → r ∉ toggle_reaction db r)
      ∧ (toggle_reaction db r).Nodup
      ∧ (toggle_reaction (toggle_reaction db r) r).Perm db := by
  by_cases hr : r ∈ db
  · have hfil : toggle_reaction db r = db.filter (fun x => decide (x ≠ r)) := by
      simp [toggle_reaction, hr]
    have hout : r ∉ db.filter (fun x => decide (x ≠ r)) := by
      intro hmem
      simp [List.mem_filter] at hmem
    refine ⟨fun hno => absurd hr hno, fun _ => by rw [hfil]; exact hout, ?_, ?_⟩
    · rw [hfil]; exact h.filter _
    · rw [hfil]
      have h2 : toggle_reaction (db.filter (fun x => decide (x ≠ r))) r
          = db.filter (fun x => decide (x ≠ r)) ++ [r] := by
        simp [toggle_reaction, hout]
      rw [h2]
      have hperm1 : db.filter (fun x => decide (x ≠ r)) ++ [r]
          |>.Perm (r :: db.filter (fun x => decide (x ≠ r))) :=
        List.perm_append_singleton r _
      refine hperm1.trans ?_
      have herase : db.erase r = db.filter (fun x => decide (x ≠ r)) := by
        simpa using h.erase_eq_filter r
      rw [← herase]
      exact (List.perm_cons_erase hr).symm
  · have happ : toggle_reaction db r = db ++ [r] := by
      simp [toggle_reaction, hr]
    refine ⟨fun _ => happ, fun hin => absurd hin hr, ?_, ?_⟩
    · rw [happ, List.nodup_append]
      refine ⟨h, List.nodup_singleton r, ?_⟩
      intro a ha har
      rw [List.mem_singleton] at har
      exact hr (har ▸ ha)
    · rw [happ]
      have hin2 : r ∈ db ++ [r] := by simp
      have hfil : toggle_reaction (db ++ [r]) r
          = (db ++ [r]).filter (fun x => decide (x ≠ r)) := by
        simp [toggle_reaction, hin2]
      rw [hfil, List.filter_append]
      have h1 : db.filter (fun x => decide (x ≠ r)) = db :=
        List.filter_eq_self.mpr (fun a ha => by
          simp only [decide_eq_true_eq]
          intro hEq
          exact hr (hEq ▸ ha))
      have h2 : ([r] : List Reaction).filter (fun x => decide (x ≠ r)) = [] := by
        simp
      rw [h1, h2, List.append_nil]

/-- Witness for C9 on a concrete table. -/
theorem c9_reaction_toggle_witness :
    toggle_reaction [] ⟨1, "x", "ann"⟩ = [⟨1, "x", "ann"⟩] :=
  (c9_reaction_toggle [] ⟨1, "x", "ann"⟩ List.nodup_nil).1 (by simp)

/-- Claim C1 counterexample: the document Save handler
(`UPDATE documents SET content=? WHERE id=?`) does not re-assert the
family scope.  A session acting as family `"B"` that runs the update on
id 1 modifies family `"A"`'s document — the claim's required "no effect"
fails at this concrete input. -/
theorem c1_family_scope_counterexample :
    update_document
        [{ id := 1, title := "Diary", content := "secret", family := "A",
           deleted_at := none }] "B" 1 "pwned"
      = [{ id := 1, title := "Diary", content := "pwned", family := "A",
           deleted_at := none }]
      ∧ ("A" : String) ≠ "B" := by
  constructor
  · rfl
  · decide

/-- Claim C1 amended: only some mutations re-assert the family scope.
Note soft-delete, note position updates, event update/delete and
chat-message delete filter on `id AND family`, so acting as a family
that owns no row with the id has no effect on any of those tables; but
the document save and delete, list soft-delete, list-item done-toggle
and delete, and the wishlist claim/unclaim/purchase statements filter by
the caller-supplied id alone, so each of them, given an id belonging to
family A while acting as family B, does modify (or remove) family A's
row. -/
theorem c1_family_scope_amended
    (ndb : List NoteRow) (edb : List EventDbRow) (cdb : List ChatDbRow)
    (ddb : List DocRow) (ldb : List ListRow) (idb : List ListItemRow)
    (fam famB room author t c ti s en asg u : String) (i : Nat)
    (px py : Int) (dn ad : Bool)
    (d : DocRow) (l : ListRow) (itm : ListItemRow)
    (hnote : ∀ n ∈ ndb, n.id = i → n.family ≠ fam)
    (hev : ∀ r ∈ edb, r.id = i → r.family ≠ fam)
    (hch : ∀ m ∈ cdb, m.id = i → m.family ≠ fam)
    (hd : d ∈ ddb) (hdi : d.id = i)
    (hl : l ∈ ldb) (hli : l.id = i)
    (hit : itm ∈ idb) (hiti : itm.id = i) :
    (soft_delete_note ndb fam i t = ndb
      ∧ update_note_position ndb fam i px py = ndb
      ∧ update_event edb fam i ti s en asg ad = edb
      ∧ delete_event edb fam i = edb
      ∧ delete_chat_message cdb i fam room author = cdb)
    ∧ ({ d with content := c } ∈ update_document ddb famB i c
      ∧ { d with deleted_at := some t } ∈ soft_delete_document ddb i t
      ∧ { l with deleted_at := some t } ∈ soft_delete_list ldb i t
      ∧ { itm with done := dn } ∈ set_item_done idb i dn
      ∧ itm ∉ delete_list_item idb i
      ∧ wish_claim itm u ∈ claim_item idb u i
      ∧ wish_unclaim itm ∈ unclaim_item idb i
      ∧ wish_purchase itm u ∈ purchase_item idb u i) := by
  refine ⟨⟨?_, ?_, ?_, ?_, ?_⟩, ?_, ?_, ?_, ?_, ?_, ?_, ?_, ?_⟩
  · refine list_map_fixed_eq_self _ _ (fun n hn => ?_)
    refine if_neg (fun hc => ?_)
    exact hnote n hn hc.1 hc.2
  · refine list_map_fixed_eq_self _ _ (fun n hn => ?_)
    refine if_neg (fun hc => ?_)
    exact hnote n hn hc.1 hc.2
  · refine list_map_fixed_eq_self _ _ (fun r hr => ?_)
    refine if_neg (fun hc => ?_)
    exact hev r hr hc.1 hc.2
  · refine List.filter_eq_self.mpr (fun r hr => ?_)
    by_cases hid : r.id = i
    · have hb : (r.family == fam) = false :=
        beq_eq_false_iff_ne.mpr (hev r hr hid)
      simp [hb]
    · have ha : (r.id == i) = false := beq_eq_false_iff_ne.mpr hid
      simp [ha]
  · refine List.filter_eq_self.mpr (fun m hm => ?_)
    by_cases hid : m.id = i
    · have hb : (m.family == fam) = false :=
        beq_eq_false_iff_ne.mpr (hch m hm hid)
      simp [hb]
    · have ha : (m.id == i) = false := beq_eq_false_iff_ne.mpr hid
      simp [ha]
  · unfold update_document
    exact List.mem_map.mpr ⟨d, hd, by rw [if_pos hdi]⟩
  · unfold soft_delete_document
    exact List.mem_map.mpr ⟨d, hd, by rw [if_pos hdi]⟩
  · unfold soft_delete_list
    exact List.mem_map.mpr ⟨l, hl, by rw [if_pos hli]⟩
  · unfold set_item_done
    exact List.mem_map.mpr ⟨itm, hit, by rw [if_pos hiti]⟩
  · intro hmem
    unfold delete_list_item at hmem
    rw [List.mem_filter] at hmem
    obtain ⟨_, hcond⟩ := hmem
    simp [hiti] at hcond
  · unfold claim_item
    exact List.mem_map.mpr ⟨itm, hit, by rw [if_pos hiti]⟩
  · unfold unclaim_item
    exact List.mem_map.mpr ⟨itm, hit, by rw [if_pos hiti]⟩
  · unfold purchase_item
    exact List.mem_map.mpr ⟨itm, hit, by rw [if_pos hiti]⟩

/-- Witness for the amended C1 on concrete one-row tables: a session
acting as family "B" soft-deletes note id 1 owned by family "A" with no
effect, while the same session's document save rewrites "A"'s document. -/
theorem c1_family_scope_amended_witness :
    soft_delete_note
        [{ id := 1, content := "milk", color := "#FFF176", x := 40, y := 40, z := 1,
           type := "text", assignee := none, due_at := none, tags := none,
           order_index := 1, linked_event_id := none, family := "A",
           deleted_at := none }] "B" 1 "2024-01-01"
      = [{ id := 1, content := "milk", color := "#FFF176", x := 40, y := 40, z := 1,
           type := "text", assignee := none, due_at := none, tags := none,
           order_index := 1, linked_event_id := none, family := "A",
           deleted_at := none }]
      ∧ ({ id := 1, title := "T", content := "new", family := "A",
           deleted_at := none } : DocRow)
        ∈ update_document
            [{ id := 1, title := "T", content := "c", family := "A",
               deleted_at := none }] "B" 1 "new" := by
  have h := c1_family_scope_amended
    [{ id := 1, content := "milk", color := "#FFF176", x := 40, y := 40, z := 1,
       type := "text", assignee := none, due_at := none, tags := none,
       order_index := 1, linked_event_id := none, family := "A", deleted_at := none }]
    [] []
    [{ id := 1, title := "T", content := "c", family := "A", deleted_at := none }]
    [{ id := 1, title := "L", family := "A", type := "normal", created_by := none,
       deleted_at := none }]
    [{ id := 1, list_id := 1, text := "x", done := false, url := none,
       image_url := none, claimed_by := none, purchased_by := none }]
    "B" "B" "general" "bea" "2024-01-01" "new" "Ti" "s" "e" "asg" "bea" 1
    7 9 true false
    { id := 1, title := "T", content := "c", family := "A", deleted_at := none }
    { id := 1, title := "L", family := "A", type := "normal", created_by := none,
      deleted_at := none }
    { id := 1, list_id := 1, text := "x", done := false, url := none,
      image_url := none, claimed_by := none, purchased_by := none }
    (by intro n hn h1 h2; simp at hn; rw [hn] at h2; exact absurd h2 (by decide))
    (by intro r hr h1 h2; exact absurd hr (List.not_mem_nil r))
    (by intro m hm h1 h2; exact absurd hm (List.not_mem_nil m))
    (by simp) rfl (by simp) rfl (by simp) rfl
  exact ⟨h.1.1, h.2.1⟩

/-- Claim C7 counterexample: with an explicit name already in transient
session state (`"Alice"`) and no user carried in the query parameters,
the bootstrap replaces the transient name with the persisted last-active
value (`"Bob"`) instead of keeping it. -/
theorem c7_identity_priority_counterexample :
    resolve_user (some "Alice") none (some "Bob") = "Bob"
      ∧ ("Bob" : String) ≠ "Alice" := by
  constructor
  · rfl
  · decide

/-- Claim C7 amended: the actual precedence implemented by
`_sticky_user_bootstrap`.  When the shareable reference carries a
(non-empty) user, the transient session value wins over it and the
persisted setting is not consulted; when the reference carries no user,
the persisted (non-empty) last-active value overrides even an explicit
transient name; the defaults `"Guest"` / `"public"` apply when no source
provides a value. -/
theorem c7_identity_priority_amended (s q l : String) (sessionUser la : Option String)
    (hq : q ≠ "") (hl : l ≠ "") (hsl : s ≠ l) :
    resolve_user sessionUser (some q) la = sessionUser.getD q
      ∧ resolve_user (some s) none (some l) = l
      ∧ resolve_user none none none = "Guest"
      ∧ resolve_family none none = "public" := by
  refine ⟨?_, ?_, rfl, rfl⟩
  · cases sessionUser <;> simp [resolve_user, pyTruthy, hq, Option.getD]
  · simp [resolve_user, pyTruthy, hl, hsl]

/-- Witness for the amended C7 at concrete values. -/
theorem c7_identity_priority_amended_witness :
    resolve_user (some "Carol") (some "Dan") (some "Erin") = "Carol" :=
  (c7_identity_priority_amended "Alice" "Dan" "Bob" (some "Carol") (some "Erin")
    (by decide) (by decide) (by decide)).1

/-- Claim C5: loading the chat window keeps the last 100 messages in
chronological order; the unread count is the number of loaded messages
with id above the cursor from another author; the cursor is then set to
the newest loaded id.  Concretely: with every existing message at id
`≤ C` and one new message `C+1` from a different author, the indicator
fires exactly once (count 1), the cursor advances to `C+1`, and a
re-render without new arrivals shows count 0. -/
theorem c5_chat_freshness (msgs : List ChatMsg) (viewer a txt : String) (C : Nat)
    (hall : ∀ m ∈ msgs, m.id ≤ C) (ha : a ≠ viewer) :
    (chat_render (msgs ++ [⟨C + 1, a, txt⟩]) viewer C).1 = 1
      ∧ (chat_render (msgs ++ [⟨C + 1, a, txt⟩]) viewer C).2 = C + 1
      ∧ (chat_render (msgs ++ [⟨C + 1, a, txt⟩]) viewer (C + 1)).1 = 0 := by
  have hwin : chat_window (msgs ++ [⟨C + 1, a, txt⟩])
      = (msgs.reverse.take 99).reverse ++ [⟨C + 1, a, txt⟩] := by
    unfold chat_window
    rw [List.reverse_append]
    rw [show ([(⟨C + 1, a, txt⟩ : ChatMsg)].reverse ++ msgs.reverse)
        = (⟨C + 1, a, txt⟩ : ChatMsg) :: msgs.reverse by simp]
    rw [show (100 : Nat) = 99 + 1 from rfl, List.take_succ_cons, List.reverse_cons]
  have hmem : ∀ x ∈ (msgs.reverse.take 99).reverse, x.id ≤ C := by
    intro x hx
    refine hall x ?_
    rw [List.mem_reverse] at hx
    exact List.mem_reverse.mp (List.mem_of_mem_take hx)
  refine ⟨?_, ?_, ?_⟩
  · unfold chat_render new_from_others
    rw [hwin, List.filter_append]
    have h1 : ((msgs.reverse.take 99).reverse).filter
        (fun m => decide (C < m.id) && decide (m.author ≠ viewer)) = [] := by
      rw [List.filter_eq_nil_iff]
      intro m hm
      have := hmem m hm
      simp only [Bool.and_eq_true, decide_eq_true_eq, not_and]
      intro hlt
      omega
    have h2 : ([(⟨C + 1, a, txt⟩ : ChatMsg)]).filter
        (fun m => decide (C < m.id) && decide (m.author ≠ viewer))
        = [⟨C + 1, a, txt⟩] := by
      simp [ha]
    rw [h1, h2]
    rfl
  · unfold chat_render chat_last_id
    rw [hwin, List.getLast?_concat]
  · unfold chat_render new_from_others
    rw [hwin, List.filter_append]
    have h1 : ((msgs.reverse.take 99).reverse).filter
        (fun m => decide (C + 1 < m.id) && decide (m.author ≠ viewer)) = [] := by
      rw [List.filter_eq_nil_iff]
      intro m hm
      have := hmem m hm
      simp only [Bool.and_eq_true, decide_eq_true_eq, not_and]
      intro hlt
      omega
    have h2 : ([(⟨C + 1, a, txt⟩ : ChatMsg)]).filter
        (fun m => decide (C + 1 < m.id) && decide (m.author ≠ viewer)) = [] := by
      simp
    rw [h1, h2]
    rfl

/-- Witness for C5: one old own message at id 1, a new message id 2 from
another author, cursor 1. -/
theorem c5_chat_freshness_witness :
    (chat_render [⟨1, "vera", "hi"⟩, ⟨2, "walt", "yo"⟩] "vera" 1).1 = 1 :=
  (c5_chat_freshness [⟨1, "vera", "hi"⟩] "vera" "walt" "yo" 1
    (by intro m hm; simp at hm; rw [hm]) (by decide)).1

/-- Claim C4: month/list windows span the first through last calendar
day of the reference month (Feb 2024 ends on the 29th, Feb 2023 on the
28th); the week window is the Monday-through-Sunday span containing the
reference date; the day window is the reference date alone; and an event
is loaded exactly when its parsed start date lies in `[d0, d1]` and the
optional assignee filter is a case-insensitive substring of its
assignees. -/
theorem c4_calendar_window (ref : PyDate) (h : 1 ≤ ref.day) :
    (calWindow CalView.month ⟨2024, 2, 15⟩
        = (toOrdinal ⟨2024, 2, 1⟩, toOrdinal ⟨2024, 2, 29⟩)
      ∧ calWindow CalView.list ⟨2024, 2, 15⟩
        = (toOrdinal ⟨2024, 2, 1⟩, toOrdinal ⟨2024, 2, 29⟩)
      ∧ calWindow CalView.month ⟨2023, 2, 15⟩
        = (toOrdinal ⟨2023, 2, 1⟩, toOrdinal ⟨2023, 2, 28⟩))
      ∧ (pyWeekday (calWindow CalView.week ref).1 = 0
        ∧ (calWindow CalView.week ref).2 = (calWindow CalView.week ref).1 + 6
        ∧ (calWindow CalView.week ref).1 ≤ toOrdinal ref
        ∧ toOrdinal ref ≤ (calWindow CalView.week ref).2)
      ∧ calWindow CalView.day ref = (toOrdinal ref, toOrdinal ref)
      ∧ (∀ (rows : List EventRow) (d0 d1 : Nat) (who : String),
          load_events_between d0 d1 who rows
            = rows.filter (eventIncluded d0 d1 who)) := by
  refine ⟨⟨by decide, by decide, by decide⟩, ?_, rfl, ?_⟩
  · have h1 : 1 ≤ toOrdinal ref := le_trans h (Nat.le_add_left _ _)
    show pyWeekday (toOrdinal ref - pyWeekday (toOrdinal ref)) = 0
      ∧ (toOrdinal ref - pyWeekday (toOrdinal ref) + 6)
          = (toOrdinal ref - pyWeekday (toOrdinal ref)) + 6
      ∧ toOrdinal ref - pyWeekday (toOrdinal ref) ≤ toOrdinal ref
      ∧ toOrdinal ref ≤ toOrdinal ref - pyWeekday (toOrdinal ref) + 6
    unfold pyWeekday
    refine ⟨?_, rfl, ?_, ?_⟩ <;> omega
  · intro rows d0 d1 who
    induction rows with
    | nil => rfl
    | cons e rest ih =>
      cases hsd : e.startDate with
      | none =>
        simp [load_events_between, List.filter_cons, eventIncluded, hsd, ih]
      | some sd =>
        by_cases hA : d0 ≤ sd
        · by_cases hB : sd ≤ d1
          · by_cases h2 : who = ""
            · subst h2
              simp [load_events_between, List.filter_cons, eventIncluded, hsd,
                hA, hB, ih]
            · cases h3 : strContains who.toLower ((e.assignees.getD "").toLower) with
              | true =>
                simp [load_events_between, List.filter_cons, eventIncluded, hsd,
                  hA, hB, h2, h3, ih]
              | false =>
                simp [load_events_between, List.filter_cons, eventIncluded, hsd,
                  hA, hB, h2, h3, ih]
          · simp [load_events_between, List.filter_cons, eventIncluded, hsd,
              hA, hB, ih]
        · simp [load_events_between, List.filter_cons, eventIncluded, hsd, hA, ih]

/-- Witness for C4 at the concrete reference date 2024-02-15. -/
theorem c4_calendar_window_witness :
    calWindow CalView.day ⟨2024, 2, 15⟩
      = (toOrdinal ⟨2024, 2, 15⟩, toOrdinal ⟨2024, 2, 15⟩) :=
  (c4_calendar_window ⟨2024, 2, 15⟩ (by decide)).2.2.1

/-- Claim C6: a newly created note is appended with `order_index` equal
to 1 plus the maximum `order_index` over alive notes of its family (the
SQL `COALESCE(MAX(..),0)` agrees with the true maximum, defaulting to 0
on an empty family); the listing is sorted by `order_index DESC, id
DESC`; and inserting three notes into an empty family yields
`order_index` 1, 2, 3 in insertion order while the listing returns them
as 3, 2, 1. -/
theorem c6_note_ordering :
    (∀ (db : List NoteRow) (fam content color ty : String)
        (asg tags due : Option String),
        ∃ n : NoteRow,
          insert_note db fam content color ty asg tags due = db ++ [n]
            ∧ n.order_index = max_order_index db fam + 1
            ∧ n.family = fam ∧ n.deleted_at = none ∧ n.content = content)
      ∧ (∀ (db : List NoteRow) (fam : String),
          max_order_index db fam
            = (((db.filter (note_alive_in_family fam)).map
                  (fun n => n.order_index)).max?).getD 0)
      ∧ (∀ db fam f1 f2 f3 p, (list_notes db fam f1 f2 f3 p).Sorted noteOrder)
      ∧ ((insert_note (insert_note (insert_note [] "f" "a" "c" "text" none none none)
            "f" "b" "c" "text" none none none) "f" "c3" "c" "text" none none none).map
          (fun n => n.order_index) = [1, 2, 3])
      ∧ ((list_notes (insert_note (insert_note (insert_note [] "f" "a" "c" "text" none none none)
            "f" "b" "c" "text" none none none) "f" "c3" "c" "text" none none none)
          "f" "" "" "" 0).map (fun n => n.order_index) = [3, 2, 1])
      ∧ ((list_notes (insert_note (insert_note (insert_note [] "f" "a" "c" "text" none none none)
            "f" "b" "c" "text" none none none) "f" "c3" "c" "text" none none none)
          "f" "" "" "" 0).map (fun n => n.id) = [3, 2, 1]) := by
  refine ⟨?_, ?_, ?_, by decide, by decide, by decide⟩
  · intro db fam content color ty asg tags due
    exact ⟨_, rfl, rfl, rfl, rfl, rfl⟩
  · intro db fam
    unfold max_order_index
    cases hm : (db.filter (note_alive_in_family fam)).map (fun n => n.order_index) with
    | nil => rfl
    | cons v vs => simp [List.max?]
  · intro db fam f1 f2 f3 p
    have hs : (List.insertionSort noteOrder
        (db.filter (fun n =>
          note_alive_in_family fam n
            && note_matches_filters f1 f2 f3 n))).Sorted noteOrder :=
      List.sorted_insertionSort noteOrder _
    refine List.Pairwise.sublist ?_ hs
    exact (List.take_sublist _ _).trans (List.drop_sublist _ _)

/-- Claim C8: soft delete for notes, lists and documents only sets
`deleted_at` (row count unchanged, the marked row remains present in the
table with its timestamp populated), and such a row never appears in the
family-scoped listing query of its entity type. -/
theorem c8_soft_delete (ndb : List NoteRow) (ldb : List ListRow) (ddb : List DocRow)
    (fam t : String) (i : Nat) (n : NoteRow) (l : ListRow) (d : DocRow)
    (hn : n ∈ ndb) (hni : n.id = i) (hnf : n.family = fam)
    (hl : l ∈ ldb) (hli : l.id = i)
    (hd : d ∈ ddb) (hdi : d.id = i) :
    ((soft_delete_note ndb fam i t).length = ndb.length
      ∧ { n with deleted_at := some t } ∈ soft_delete_note ndb fam i t
      ∧ (∀ f1 f2 f3 p r, r ∈ list_notes (soft_delete_note ndb fam i t) fam f1 f2 f3 p →
          r.id ≠ i))
    ∧ ((soft_delete_list ldb i t).length = ldb.length
      ∧ { l with deleted_at := some t } ∈ soft_delete_list ldb i t
      ∧ (∀ fam2 r, r ∈ list_lists (soft_delete_list ldb i t) fam2 → r.id ≠ i))
    ∧ ((soft_delete_document ddb i t).length = ddb.length
      ∧ { d with deleted_at := some t } ∈ soft_delete_document ddb i t
      ∧ (∀ fam2 r, r ∈ list_documents (soft_delete_document ddb i t) fam2 → r.id ≠ i)) := by
  refine ⟨⟨?_, ?_, ?_⟩, ⟨?_, ?_, ?_⟩, ⟨?_, ?_, ?_⟩⟩
  · simp [soft_delete_note]
  · unfold soft_delete_note
    exact List.mem_map.mpr ⟨n, hn, by rw [if_pos ⟨hni, hnf⟩]⟩
  · intro f1 f2 f3 p r hr
    unfold list_notes at hr
    have hr1 := List.mem_of_mem_take hr
    have hr2 := List.mem_of_mem_drop hr1
    have hr3 := (List.perm_insertionSort noteOrder _).mem_iff.mp hr2
    rw [List.mem_filter] at hr3
    obtain ⟨hrdb, hcond⟩ := hr3
    rw [Bool.and_eq_true] at hcond
    obtain ⟨halive, _⟩ := hcond
    have hfr : r.family = fam ∧ r.deleted_at = none := by
      unfold note_alive_in_family at halive
      rw [Bool.and_eq_true] at halive
      obtain ⟨ha1, ha2⟩ := halive
      exact ⟨by simpa using ha1, by simpa using ha2⟩
    unfold soft_delete_note at hrdb
    rw [List.mem_map] at hrdb
    obtain ⟨n0, hn0, hfn0⟩ := hrdb
    intro hri
    by_cases hc : n0.id = i ∧ n0.family = fam
    · rw [if_pos hc] at hfn0
      have hdel : r.deleted_at = some t := by rw [← hfn0]
      rw [hfr.2] at hdel
      exact Option.noConfusion hdel
    · rw [if_neg hc] at hfn0
      exact hc ⟨by rw [hfn0]; exact hri, by rw [hfn0]; exact hfr.1⟩
  · simp [soft_delete_list]
  · unfold soft_delete_list
    exact List.mem_map.mpr ⟨l, hl, by rw [if_pos hli]⟩
  · intro fam2 r hr
    unfold list_lists at hr
    have hr1 := List.mem_of_mem_take hr
    have hr2 := (List.perm_insertionSort listRowOrder _).mem_iff.mp hr1
    rw [List.mem_filter] at hr2
    obtain ⟨hrdb, hcond⟩ := hr2
    rw [Bool.and_eq_true] at hcond
    obtain ⟨_, hdead⟩ := hcond
    have hrd : r.deleted_at = none := by simpa using hdead
    unfold soft_delete_list at hrdb
    rw [List.mem_map] at hrdb
    obtain ⟨l0, hl0, hfl0⟩ := hrdb
    intro hri
    by_cases hc : l0.id = i
    · rw [if_pos hc] at hfl0
      have hdel : r.deleted_at = some t := by rw [← hfl0]
      rw [hrd] at hdel
      exact Option.noConfusion hdel
    · rw [if_neg hc] at hfl0
      exact hc (by rw [hfl0]; exact hri)
  · simp [soft_delete_document]
  · unfold soft_delete_document
    exact List.mem_map.mpr ⟨d, hd, by rw [if_pos hdi]⟩
  · intro fam2 r hr
    unfold list_documents at hr
    have hr1 := List.mem_of_mem_take hr
    have hr2 := (List.perm_insertionSort docRowOrder _).mem_iff.mp hr1
    rw [List.mem_filter] at hr2
    obtain ⟨hrdb, hcond⟩ := hr2
    rw [Bool.and_eq_true] at hcond
    obtain ⟨_, hdead⟩ := hcond
    have hrd : r.deleted_at = none := by simpa using hdead
    unfold soft_delete_document at hrdb
    rw [List.mem_map] at hrdb
    obtain ⟨d0, hd0, hfd0⟩ := hrdb
    intro hri
    by_cases hc : d0.id = i
    · rw [if_pos hc] at hfd0
      have hdel : r.deleted_at = some t := by rw [← hfd0]
      rw [hrd] at hdel
      exact Option.noConfusion hdel
    · rw [if_neg hc] at hfd0
      exact hc (by rw [hfd0]; exact hri)

/-- Witness for C8 on concrete one-row tables. -/
theorem c8_soft_delete_witness :
    ({ id := 1, title := "T", content := "c", family := "A", deleted_at := some "ts" }
        : DocRow)
      ∈ soft_delete_document
          [{ id := 1, title := "T", content := "c", family := "A", deleted_at := none }]
          1 "ts" :=
  (c8_soft_delete
    [{ id := 1, content := "milk", color := "#FFF176", x := 40, y := 40, z := 1,
       type := "text", assignee := none, due_at := none, tags := none,
       order_index := 1, linked_event_id := none, family := "A", deleted_at := none }]
    [{ id := 1, title := "L", family := "A", type := "normal", created_by := none,
       deleted_at := none }]
    [{ id := 1, title := "T", content := "c", family := "A", deleted_at := none }]
    "A" "ts" 1
    { id := 1, content := "milk", color := "#FFF176", x := 40, y := 40, z := 1,
      type := "text", assignee := none, due_at := none, tags := none,
      order_index := 1, linked_event_id := none, family := "A", deleted_at := none }
    { id := 1, title := "L", family := "A", type := "normal", created_by := none,
      deleted_at := none }
    { id := 1, title := "T", content := "c", family := "A", deleted_at := none }
    (by simp) rfl rfl (by simp) rfl (by simp) rfl).2.2.2.1

end Hive
